import Mathlib

/-!
Verification development for the promptops recipe-creation module
(promptops/recipes/creation.py). The streaming HTTP layer is abstracted:
each network call takes a `Response` value holding the status code, the
JSON body surrogate and, for streaming calls, the decoded line sequence.
JSON event objects are embedded as records of the optional fields the
code reads (id, step, type, files, key); Python truthiness of a
string-or-None value is the predicate `truthy`. Printing is embedded as
an output trace, in-place dict mutation as explicit state passing, and a
raised exception as an `Option PyErr` alongside the state reached when
the exception was raised (Python mutates the recipe dict in place, so
mutations survive the exception).
-/

namespace PromptOps

/-- Truthiness of a Python value that is either a string or None. -/
def truthy : Option String → Bool
  | none => false
  | some s => s ≠ ""

/-- A decoded JSON event object, restricted to the keys the code reads. -/
structure JsonObj where
  id : Option String := none
  step : Option String := none
  type : Option String := none
  files : Option (List String) := none
  key : Option String := none
deriving Repr, DecidableEq

/-- One line of a streamed response body: empty, non-JSON, or a decoded object. -/
inductive RawLine where
  | blank
  | malformed
  | jsonLine (e : JsonObj)
deriving Repr, DecidableEq

/-- One print call to standard output. -/
inductive Out where
  | line (s : String)
  | unknownLog (e : JsonObj)
  | respBody (body : String)
deriving Repr, DecidableEq

/-- Exceptions the embedded code can raise. -/
inductive PyErr where
  | jsonDecodeError
  | attributeErrorNoneStop
  | typeErrorNoneIter
  | keyError
  | httpError (status : Nat)
  | keyboardInterrupt
deriving Repr, DecidableEq

/-- The recipe dict, restricted to the keys the code reads and writes. -/
structure Recipe where
  id : Option String := none
  steps : List String := []
  execution : List JsonObj := []
  parameters : List JsonObj := []
deriving Repr, DecidableEq

/-- Modelled from the spec: a CancellableSimpleLoader handle
(promptops/loading/cancellable.py is not under src/). Its internals are
opaque here; all the embedded code does is test it for truthiness and
call stop on it. -/
structure Loader where
deriving Repr, DecidableEq

/-- An HTTP response: status code, JSON body surrogate, and (for
streaming calls) the sequence of body lines. -/
structure Response where
  status : Nat := 200
  body : String := ""
  lines : List RawLine := []
deriving Repr, DecidableEq

def LANG_SHELL : String := "shell"

def LANG_TF : String := "terraform"

def LANG_OPTIONS : List String := [LANG_TF, LANG_SHELL]

def initBanner : String :=
  "Based on your requirements, I\x27ve set the project outline to include the following steps: "

def clarifyBanner : String :=
  "Based on your requirements & extra details, I\x27ve set the project outline to include the following steps: "

/-- State threaded through the outline-ingestion loop shared by
init_recipe and clarify_steps: the recipe, the output trace, the current
loading handle, and a count of stop calls made on it. Modelled from the
spec: CancellableSimpleLoader.stop tears the spinner down and yields no
replacement handle (the code rebinds loading to the value stop returns
and prints the banner only while loading is truthy, and the spec states
the banner is printed on the first step event only). -/
structure OutlineState where
  recipe : Recipe
  output : List Out := []
  loading : Option Loader := none
  loadingStops : Nat := 0
deriving Repr, DecidableEq

/-- One decoded event in init_recipe or clarify_steps: a truthy id field
sets the recipe id; otherwise a truthy step field stops the loader on
its first occurrence (printing the banner), appends the step and prints
it 1-based; any other object is skipped silently. -/
def outlineEvent (banner : String) (st : OutlineState) (e : JsonObj) : OutlineState :=
  if truthy e.id then
    { st with recipe := { st.recipe with id := e.id } }
  else if truthy e.step then
    let st1 :=
      if st.loading.isSome then
        { st with loading := none, loadingStops := st.loadingStops + 1,
                  output := st.output ++ [Out.line banner] }
      else st
    let stp := e.step.getD ""
    let newSteps := st1.recipe.steps ++ [stp]
    { st1 with recipe := { st1.recipe with steps := newSteps },
               output := st1.output ++ [Out.line s!"{newSteps.length}. {stp}"] }
  else st

/-- The line loop of init_recipe and clarify_steps: blank lines are
skipped, a malformed line raises json.JSONDecodeError (the state reached
so far is kept), a decoded object is folded by outlineEvent. -/
def outlineLoop (banner : String) : List RawLine → OutlineState → OutlineState × Option PyErr
  | [], st => (st, none)
  | RawLine.blank :: rest, st => outlineLoop banner rest st
  | RawLine.malformed :: _, st => (st, some PyErr.jsonDecodeError)
  | RawLine.jsonLine e :: rest, st => outlineLoop banner rest (outlineEvent banner st e)

def emptyRecipe : Recipe := {}

/-- init_recipe: posts the init request (request construction elided;
the response is a parameter), builds a fresh recipe with empty steps,
and ingests the streamed lines. The prompt, language and workflow id
only feed the elided request. -/
def init_recipe (prompt language : String) (workflow_id : Option String)
    (loading : Option Loader) (resp : Response) : OutlineState × Option PyErr :=
  outlineLoop initBanner resp.lines { recipe := { emptyRecipe with steps := [] }, loading := loading }

/-- clarify_steps: reading the id key of the recipe dict for the request
raises KeyError when absent; otherwise steps are reset to empty and the
streamed lines are ingested exactly as in init_recipe, with the clarify
banner. -/
def clarify_steps (recipe : Recipe) (clarification : String)
    (loading : Option Loader) (resp : Response) : OutlineState × Option PyErr :=
  match recipe.id with
  | none => ({ recipe := recipe, loading := loading }, some PyErr.keyError)
  | some _ =>
    outlineLoop clarifyBanner resp.lines { recipe := { recipe with steps := [] }, loading := loading }

/-- State threaded through the execution-stream loop of
get_recipe_execution: recipe, output trace, the two loader queues,
whether a CancellableMultiLoader was constructed, and stop-call counts
on the passed-in loader and on the multi loader. -/
structure ExecState where
  recipe : Recipe
  output : List Out := []
  startedQ : List String := []
  completedQ : List (Option String) := []
  multiStarted : Bool := false
  loadingStops : Nat := 0
  multiStops : Nat := 0
deriving Repr, DecidableEq

/-- One decoded event in get_recipe_execution, dispatched on the type
field: a files event stops the passed loader (AttributeError when it is
None), constructs the multi loader and pushes each label onto the
started queue (iterating a missing files field raises TypeError); an
execution event appends the whole object to recipe execution and pushes
its key onto the completed queue; a parameter event appends to recipe
parameters; anything else is logged as unknown. -/
def execEvent (loading : Option Loader) (st : ExecState) (e : JsonObj) : ExecState × Option PyErr :=
  if e.type = some "files" then
    match loading with
    | none => (st, some PyErr.attributeErrorNoneStop)
    | some _ =>
      let st1 := { st with loadingStops := st.loadingStops + 1, multiStarted := true }
      match e.files with
      | none => (st1, some PyErr.typeErrorNoneIter)
      | some fs => ({ st1 with startedQ := st1.startedQ ++ fs }, none)
  else if e.type = some "execution" then
    ({ st with recipe := { st.recipe with execution := st.recipe.execution ++ [e] },
               completedQ := st.completedQ ++ [e.key] }, none)
  else if e.type = some "parameter" then
    ({ st with recipe := { st.recipe with parameters := st.recipe.parameters ++ [e] } }, none)
  else
    ({ st with output := st.output ++ [Out.unknownLog e] }, none)

/-- The line loop of get_recipe_execution. -/
def execLoop (loading : Option Loader) : List RawLine → ExecState → ExecState × Option PyErr
  | [], st => (st, none)
  | RawLine.blank :: rest, st => execLoop loading rest st
  | RawLine.malformed :: _, st => (st, some PyErr.jsonDecodeError)
  | RawLine.jsonLine e :: rest, st =>
    match execEvent loading st e with
    | (st1, none) => execLoop loading rest st1
    | (st1, some er) => (st1, some er)

/-- get_recipe_execution: reading the id key of the recipe dict for the
request raises KeyError when absent; otherwise execution and parameters
are reset to empty, the streamed lines are ingested, and on normal exit
the multi loader is stopped if one was constructed. -/
def get_recipe_execution (recipe : Recipe) (resp : Response)
    (loading : Option Loader) : ExecState × Option PyErr :=
  match recipe.id with
  | none => ({ recipe := recipe }, some PyErr.keyError)
  | some _ =>
    let st0 : ExecState := { recipe := { recipe with execution := [], parameters := [] } }
    match execLoop loading resp.lines st0 with
    | (st, some er) => (st, some er)
    | (st, none) =>
      if st.multiStarted then ({ st with multiStops := st.multiStops + 1 }, none)
      else (st, none)

/-- regenerate_recipe_execution: non-streamed; reading the id key raises
KeyError when absent; a non-200 status prints the body and raises,
otherwise the body is returned. -/
def regenerate_recipe_execution (recipe : Recipe) (clarification : String)
    (resp : Response) : List Out × Except PyErr String :=
  match recipe.id with
  | none => ([], Except.error PyErr.keyError)
  | some _ =>
    if resp.status ≠ 200 then
      ([Out.respBody resp.body], Except.error (PyErr.httpError resp.status))
    else
      ([], Except.ok resp.body)

/-- save_steps: prints a blank line, posts the steps, and on a non-200
status prints the body and raises. -/
def save_steps (recipe : Recipe) (resp : Response) : List Out × Option PyErr :=
  if resp.status ≠ 200 then
    ([Out.line "", Out.respBody resp.body], some (PyErr.httpError resp.status))
  else
    ([Out.line ""], none)

/-- save_flow: prints a blank line, posts the recipe under the entered
name, and on a non-200 status prints the body and raises. -/
def save_flow (recipe : Recipe) (name : String) (resp : Response) : List Out × Option PyErr :=
  if resp.status ≠ 200 then
    ([Out.line "", Out.respBody resp.body], some (PyErr.httpError resp.status))
  else
    ([Out.line ""], none)

/-- The response of the list endpoint: status, JSON body surrogate, and
the recipes list the body decodes to. -/
structure ListResponse where
  status : Nat := 200
  body : String := ""
  recipes : List Recipe := []
deriving Repr, DecidableEq

/-- list_recipes: non-streamed; on a non-200 status prints the body
(the print also includes the status code) and raises; otherwise returns
the recipes field of the body, defaulting to empty. -/
def list_recipes (resp : ListResponse) : List Out × Except PyErr (List Recipe) :=
  if resp.status ≠ 200 then
    ([Out.respBody resp.body], Except.error (PyErr.httpError resp.status))
  else
    ([], Except.ok resp.recipes)

def printStepsFrom (n : Nat) : List String → List Out
  | [] => []
  | s :: rest => Out.line s!"{n}. {s}" :: printStepsFrom (n + 1) rest

/-- print_steps: prints every step 1-based, then a blank line. -/
def print_steps (steps : List String) : List Out :=
  printStepsFrom 1 steps ++ [Out.line ""]

/-- One iteration of the edit_steps selection loop other than the final
continue: either the text the external editor returned, or a
clarification together with the clarify response. -/
inductive EditAction where
  | vim (edited : String)
  | clarifyA (clarification : String) (resp : Response)
deriving Repr, DecidableEq

/-- Result of edit_steps: the recipe, the output trace, and whether
save_steps was invoked on exit. -/
structure EditResult where
  recipe : Recipe
  output : List Out
  saveCalled : Bool
deriving Repr, DecidableEq

/-- The selection loop of edit_steps: each iteration prints a blank line
after the menu; vim replaces the steps with the edited text split on
newlines and prints them; clarify prints an extra blank line and runs
clarify_steps with a fresh simple loader (an error there propagates);
the terminating continue iteration prints its blank line. -/
def editLoop : List EditAction → Recipe → List Out → Recipe × List Out × Option PyErr
  | [], r, out => (r, out ++ [Out.line ""], none)
  | EditAction.vim edited :: rest, r, out =>
    let newSteps := edited.splitOn "\n"
    editLoop rest { r with steps := newSteps } (out ++ [Out.line ""] ++ print_steps newSteps)
  | EditAction.clarifyA c resp :: rest, r, out =>
    match clarify_steps r c (some Loader.mk) resp with
    | (st, some er) => (st.recipe, out ++ [Out.line "", Out.line ""] ++ st.output, some er)
    | (st, none) => editLoop rest st.recipe (out ++ [Out.line "", Out.line ""] ++ st.output)

/-- edit_steps: records the entry steps, prints a blank line, runs the
selection loop, and on exit posts the steps via save_steps exactly when
the final steps differ from the entry steps (the entry list object is
never mutated in place, so the saved alias keeps the entry value). -/
def edit_steps (recipe : Recipe) (actions : List EditAction)
    (saveResp : Response) : EditResult × Option PyErr :=
  let og := recipe.steps
  match editLoop actions recipe [Out.line ""] with
  | (r, out, some er) => ({ recipe := r, output := out, saveCalled := false }, some er)
  | (r, out, none) =>
    if og = r.steps then
      ({ recipe := r, output := out, saveCalled := false }, none)
    else
      match save_steps r saveResp with
      | (sout, serr) => ({ recipe := r, output := out ++ sout, saveCalled := true }, serr)

/-- One externally visible effect of the recipe entry point. -/
inductive EntryEff where
  | out (o : Out)
  | executorRun
  | feedbackSent (id : Option String)
  | saveFlowReq (id : Option String)
deriving Repr, DecidableEq

/-- The environment of one run of the new-recipe branch of
recipe_entrypoint: the prompt, the responses of the successive network
calls, the edit-loop iterations, the save-menu selection and the name
entered for a saved flow. -/
structure EntryEnv where
  prompt : String
  initResp : Response
  editActions : List EditAction
  editSaveResp : Response
  execResp : Response
  saveSelection : Nat
  flowName : String
  saveFlowResp : Response
deriving Repr, DecidableEq

/-- The new-recipe branch of recipe_entrypoint, cut into the effect
chunks of its successive top-level calls (the chunk boundaries are the
suspension points at which an interrupt is modelled as firing). An
exception inside a call ends the run after that chunk. The external
executor and the feedback call are opaque single effects. -/
def entryChunks (env : EntryEnv) : List (List EntryEff) × Option PyErr :=
  let c0head : List EntryEff :=
    [EntryEff.out (Out.line "Recipes currently utilize Terraform. Support for more methods coming soon.\n")]
  match init_recipe env.prompt LANG_TF none (some Loader.mk) env.initResp with
  | (ist, some er) => ([c0head ++ ist.output.map EntryEff.out], some er)
  | (ist, none) =>
    let c0 := c0head ++ ist.output.map EntryEff.out
    match edit_steps ist.recipe env.editActions env.editSaveResp with
    | (eres, some er) => ([c0, eres.output.map EntryEff.out], some er)
    | (eres, none) =>
      let c1 := eres.output.map EntryEff.out
      match get_recipe_execution eres.recipe env.execResp (some Loader.mk) with
      | (gst, some er) => ([c0, c1, gst.output.map EntryEff.out], some er)
      | (gst, none) =>
        let c2 := gst.output.map EntryEff.out
        let rcp := gst.recipe
        let c3 : List EntryEff := [EntryEff.executorRun]
        let c4 : List EntryEff := [EntryEff.feedbackSent rcp.id]
        let c5 : List EntryEff :=
          [EntryEff.out (Out.line ""),
           EntryEff.out (Out.line "Would you like to save this as a reusable recipe?"),
           EntryEff.out (Out.line "")]
        if env.saveSelection = 0 then
          match save_flow rcp env.flowName env.saveFlowResp with
          | (souts, some er) =>
            ([c0, c1, c2, c3, c4, c5, EntryEff.saveFlowReq rcp.id :: souts.map EntryEff.out], some er)
          | (souts, none) =>
            let c6 := EntryEff.saveFlowReq rcp.id :: souts.map EntryEff.out ++
              [EntryEff.out (Out.line ""),
               EntryEff.out (Out.line "To use a saved recipe, simply type \x27um recipe\x27"),
               EntryEff.out (Out.line "")]
            ([c0, c1, c2, c3, c4, c5, c6], none)
        else
          ([c0, c1, c2, c3, c4, c5, [EntryEff.out (Out.line "")]], none)

/-- The body of the try block of recipe_entrypoint, with an interrupt
optionally injected at the given suspension point: the chunks before it
have run, then KeyboardInterrupt is raised; an index past the executed
chunks means the interrupt never fires. -/
def entryBody (env : EntryEnv) (interruptAt : Option Nat) : List EntryEff × Option PyErr :=
  let cs := entryChunks env
  match interruptAt with
  | none => (cs.1.flatten, cs.2)
  | some k =>
    if k < cs.1.length then
      ((cs.1.take k).flatten, some PyErr.keyboardInterrupt)
    else
      (cs.1.flatten, cs.2)

/-- recipe_entrypoint: runs the body inside a try block whose only
handler catches KeyboardInterrupt and does nothing; every other
exception propagates. -/
def recipe_entrypoint (env : EntryEnv) (interruptAt : Option Nat) : List EntryEff × Option PyErr :=
  match entryBody env interruptAt with
  | (tr, some PyErr.keyboardInterrupt) => (tr, none)
  | (tr, er) => (tr, er)

/-- The step texts an outline stream appends, in arrival order: the
step field of every decoded object whose id field is falsy and whose
step field is truthy. -/
def stepsOf (lines : List RawLine) : List String :=
  lines.filterMap fun l =>
    match l with
    | RawLine.jsonLine e =>
      if truthy e.id then none
      else if truthy e.step then some (e.step.getD "") else none
    | _ => none

def isStepLine : RawLine → Bool
  | RawLine.jsonLine e => !truthy e.id && truthy e.step
  | _ => false

def hasStepEvent (lines : List RawLine) : Bool := lines.any isStepLine

def isFilesLine : RawLine → Bool
  | RawLine.jsonLine e => e.type == some "files"
  | _ => false

def hasFilesEvent (lines : List RawLine) : Bool := lines.any isFilesLine

def filesCount (lines : List RawLine) : Nat := (lines.filter isFilesLine).length

/-- The execution-typed events of a stream, in arrival order. -/
def execEventsOf (lines : List RawLine) : List JsonObj :=
  lines.filterMap fun l =>
    match l with
    | RawLine.jsonLine e => if e.type = some "execution" then some e else none
    | _ => none

/-- The parameter-typed events of a stream, in arrival order. -/
def paramEventsOf (lines : List RawLine) : List JsonObj :=
  lines.filterMap fun l =>
    match l with
    | RawLine.jsonLine e => if e.type = some "parameter" then some e else none
    | _ => none

/-- The keys of the execution-typed events of a stream, in order. -/
def keysOf (lines : List RawLine) : List (Option String) :=
  lines.filterMap fun l =>
    match l with
    | RawLine.jsonLine e => if e.type = some "execution" then some e.key else none
    | _ => none

/-- The labels of the files-typed events of a stream, concatenated in
order. -/
def filesLabelsOf (lines : List RawLine) : List String :=
  (lines.filterMap fun l =>
    match l with
    | RawLine.jsonLine e => if e.type = some "files" then some (e.files.getD []) else none
    | _ => none).flatten

/-- The events of a stream carrying none of the execution-stream tags. -/
def unknownExecEventsOf (lines : List RawLine) : List JsonObj :=
  lines.filterMap fun l =>
    match l with
    | RawLine.jsonLine e =>
      if e.type = some "files" ∨ e.type = some "execution" ∨ e.type = some "parameter" then none
      else some e
    | _ => none

def noMalformed (lines : List RawLine) : Bool :=
  lines.all fun l =>
    match l with
    | RawLine.malformed => false
    | _ => true

/-- A line the execution loop consumes without raising when the loader
is present: not malformed, and a files-typed event carries its label
list. -/
def execLineOkSome : RawLine → Bool
  | RawLine.malformed => false
  | RawLine.jsonLine e => !(e.type == some "files") || e.files.isSome
  | RawLine.blank => true

def wfExecSome (lines : List RawLine) : Bool := lines.all execLineOkSome

/-- A line the execution loop consumes without raising when the loader
is None: not malformed and not files-typed. -/
def execLineOkNone : RawLine → Bool
  | RawLine.malformed => false
  | RawLine.jsonLine e => !(e.type == some "files")
  | RawLine.blank => true

def wfExecNone (lines : List RawLine) : Bool := lines.all execLineOkNone

/-- The id event of the worked example in the spec. -/
def eIdAbc : JsonObj := { id := some "abc" }

def eStepClone : JsonObj := { step := some "clone repo" }

def eStepBuild : JsonObj := { step := some "run build" }

/-- The outline stream of the worked example: an id event followed by
two step events. -/
def respOutlineC1 : Response :=
  { lines := [RawLine.jsonLine eIdAbc, RawLine.jsonLine eStepClone, RawLine.jsonLine eStepBuild] }

/-- The banner line an outline call prints when it holds a live loader. -/
def bannerOuts (lo : Option Loader) (banner : String) : List Out :=
  if lo.isSome then [Out.line banner] else []

def recipeR1 : Recipe := { id := some "r1" }

def eFilesTyped : JsonObj := { type := some "files", files := some ["a.tf", "b.tf"] }

def eExecTyped : JsonObj := { type := some "execution", key := some "a.tf" }

def eParamTyped : JsonObj := { type := some "parameter" }

/-- An event that carries a files field but no type tag. -/
def eFilesNoType : JsonObj := { files := some ["a.tf"] }

def respFilesNoType : Response := { lines := [RawLine.jsonLine eFilesNoType] }

def respIdOnly : Response := { lines := [RawLine.jsonLine eIdAbc] }

def respFilesTyped : Response := { lines := [RawLine.jsonLine eFilesTyped] }

def respExecMix : Response :=
  { lines := [RawLine.jsonLine eFilesTyped, RawLine.jsonLine eExecTyped, RawLine.jsonLine eParamTyped] }

/-- An event carrying none of the recognized tags. -/
def eUnknown : JsonObj := {}

def preC3 : List RawLine := [RawLine.jsonLine eStepClone]

def recipeSteps3 : Recipe := { id := some "r1", steps := ["step1", "", "step2"] }

def execSt0 : ExecState := { recipe := recipeR1 }

def ostW : OutlineState := { recipe := recipeR1 }

def estW : ExecState := { recipe := recipeR1 }

/-- A concrete entry environment used to exercise the entry point. -/
def envW : EntryEnv :=
  { prompt := "p", initResp := respIdOnly, editActions := [], editSaveResp := {},
    execResp := {}, saveSelection := 1, flowName := "n", saveFlowResp := {} }

theorem outlineEvent_steps (banner : String) (st : OutlineState) (e : JsonObj) :
    (outlineEvent banner st e).recipe.steps =
      st.recipe.steps ++ (if isStepLine (RawLine.jsonLine e) then [e.step.getD ""] else []) := by
  by_cases hid : truthy e.id
  · simp [outlineEvent, isStepLine, hid]
  · by_cases hstep : truthy e.step
    · by_cases hl : st.loading.isSome <;> simp [outlineEvent, isStepLine, hid, hstep, hl]
    · simp [outlineEvent, isStepLine, hid, hstep]

theorem outlineEvent_exec_params (banner : String) (st : OutlineState) (e : JsonObj) :
    (outlineEvent banner st e).recipe.execution = st.recipe.execution ∧
      (outlineEvent banner st e).recipe.parameters = st.recipe.parameters := by
  by_cases hid : truthy e.id
  · simp [outlineEvent, hid]
  · by_cases hstep : truthy e.step
    · by_cases hl : st.loading.isSome <;> simp [outlineEvent, hid, hstep, hl]
    · simp [outlineEvent, hid, hstep]

theorem outlineEvent_loading (banner : String) (st : OutlineState) (e : JsonObj) :
    ((outlineEvent banner st e).loading =
        (if st.loading.isSome && isStepLine (RawLine.jsonLine e) then none else st.loading)) ∧
      ((outlineEvent banner st e).loadingStops =
        st.loadingStops + (if st.loading.isSome && isStepLine (RawLine.jsonLine e) then 1 else 0)) := by
  by_cases hid : truthy e.id
  · simp [outlineEvent, isStepLine, hid]
  · by_cases hstep : truthy e.step
    · by_cases hl : st.loading.isSome <;> simp [outlineEvent, isStepLine, hid, hstep, hl]
    · simp [outlineEvent, isStepLine, hid, hstep]

theorem stepsOf_cons_json (e : JsonObj) (rest : List RawLine) :
    stepsOf (RawLine.jsonLine e :: rest) =
      (if isStepLine (RawLine.jsonLine e) then [e.step.getD ""] else []) ++ stepsOf rest := by
  by_cases hid : truthy e.id
  · simp [stepsOf, isStepLine, hid]
  · by_cases hstep : truthy e.step <;> simp [stepsOf, isStepLine, hid, hstep]

theorem outlineLoop_steps (banner : String) :
    ∀ (lines : List RawLine) (st : OutlineState), noMalformed lines = true →
      (outlineLoop banner lines st).2 = none ∧
        (outlineLoop banner lines st).1.recipe.steps = st.recipe.steps ++ stepsOf lines ∧
        (outlineLoop banner lines st).1.recipe.execution = st.recipe.execution ∧
        (outlineLoop banner lines st).1.recipe.parameters = st.recipe.parameters
  | [], st, _ => by simp [outlineLoop, stepsOf]
  | RawLine.blank :: rest, st, h => by
    have h' : noMalformed rest = true := by
      simpa [noMalformed] using h
    have ih := outlineLoop_steps banner rest st h'
    simpa [outlineLoop, stepsOf] using ih
  | RawLine.malformed :: rest, st, h => by
    simp [noMalformed] at h
  | RawLine.jsonLine e :: rest, st, h => by
    have h' : noMalformed rest = true := by
      simpa [noMalformed] using h
    have ih := outlineLoop_steps banner rest (outlineEvent banner st e) h'
    have hs := outlineEvent_steps banner st e
    have hep := outlineEvent_exec_params banner st e
    refine ⟨by simpa [outlineLoop] using ih.1, ?_, ?_, ?_⟩
    · rw [show (outlineLoop banner (RawLine.jsonLine e :: rest) st) =
        outlineLoop banner rest (outlineEvent banner st e) from rfl]
      rw [ih.2.1, hs, stepsOf_cons_json, List.append_assoc]
    · rw [show (outlineLoop banner (RawLine.jsonLine e :: rest) st) =
        outlineLoop banner rest (outlineEvent banner st e) from rfl]
      rw [ih.2.2.1, hep.1]
    · rw [show (outlineLoop banner (RawLine.jsonLine e :: rest) st) =
        outlineLoop banner rest (outlineEvent banner st e) from rfl]
      rw [ih.2.2.2, hep.2]

theorem outlineLoop_loading (banner : String) :
    ∀ (lines : List RawLine) (st : OutlineState), noMalformed lines = true →
      ((outlineLoop banner lines st).1.loading =
          (if st.loading.isSome && hasStepEvent lines then none else st.loading)) ∧
        ((outlineLoop banner lines st).1.loadingStops =
          st.loadingStops + (if st.loading.isSome && hasStepEvent lines then 1 else 0))
  | [], st, _ => by simp [outlineLoop, hasStepEvent]
  | RawLine.blank :: rest, st, h => by
    have h' : noMalformed rest = true := by
      simpa [noMalformed] using h
    have ih := outlineLoop_loading banner rest st h'
    simpa [outlineLoop, hasStepEvent, isStepLine] using ih
  | RawLine.malformed :: rest, st, h => by
    simp [noMalformed] at h
  | RawLine.jsonLine e :: rest, st, h => by
    have h' : noMalformed rest = true := by
      simpa [noMalformed] using h
    have ih := outlineLoop_loading banner rest (outlineEvent banner st e) h'
    have hl := outlineEvent_loading banner st e
    have hrw : outlineLoop banner (RawLine.jsonLine e :: rest) st =
        outlineLoop banner rest (outlineEvent banner st e) := rfl
    have hcons : hasStepEvent (RawLine.jsonLine e :: rest) =
        (isStepLine (RawLine.jsonLine e) || hasStepEvent rest) := by
      simp [hasStepEvent]
    by_cases hsome : st.loading.isSome
    · by_cases hstep : isStepLine (RawLine.jsonLine e)
      · have e1 : (outlineEvent banner st e).loading = none := by
          rw [hl.1]; simp [hsome, hstep]
        have e2 : (outlineEvent banner st e).loadingStops = st.loadingStops + 1 := by
          rw [hl.2]; simp [hsome, hstep]
        constructor
        · rw [hrw, ih.1, e1, hcons]; simp [hsome, hstep]
        · rw [hrw, ih.2, e1, e2, hcons]; simp [hsome, hstep]
      · have e1 : (outlineEvent banner st e).loading = st.loading := by
          rw [hl.1]; simp [hstep]
        have e2 : (outlineEvent banner st e).loadingStops = st.loadingStops := by
          rw [hl.2]; simp [hstep]
        constructor
        · rw [hrw, ih.1, e1, hcons]; simp [hstep]
        · rw [hrw, ih.2, e1, e2, hcons]; simp [hstep]
    · have hnone : st.loading = none := by
        cases hx : st.loading with
        | none => rfl
        | some l => rw [hx] at hsome; simp at hsome
      have e1 : (outlineEvent banner st e).loading = st.loading := by
        rw [hl.1]; simp [hsome]
      have e2 : (outlineEvent banner st e).loadingStops = st.loadingStops := by
        rw [hl.2]; simp [hsome]
      constructor
      · rw [hrw, ih.1, e1, hnone]; simp
      · rw [hrw, ih.2, e1, e2]; simp [hsome, hnone]

theorem outlineLoop_abort (banner : String) :
    ∀ (pre : List RawLine) (rest : List RawLine) (st : OutlineState), noMalformed pre = true →
      outlineLoop banner (pre ++ RawLine.malformed :: rest) st =
        ((outlineLoop banner pre st).1, some PyErr.jsonDecodeError)
  | [], rest, st, _ => by simp [outlineLoop]
  | RawLine.blank :: pre, rest, st, h => by
    have h' : noMalformed pre = true := by
      simpa [noMalformed] using h
    simpa [outlineLoop] using outlineLoop_abort banner pre rest st h'
  | RawLine.malformed :: pre, rest, st, h => by
    simp [noMalformed] at h
  | RawLine.jsonLine e :: pre, rest, st, h => by
    have h' : noMalformed pre = true := by
      simpa [noMalformed] using h
    simpa [outlineLoop] using outlineLoop_abort banner pre rest (outlineEvent banner st e) h'


theorem execEvent_some_snd (l : Loader) (st : ExecState) (e : JsonObj)
    (h : execLineOkSome (RawLine.jsonLine e) = true) :
    (execEvent (some l) st e).2 = none := by
  by_cases htf : e.type = some "files"
  · simp [execLineOkSome, htf] at h
    cases hfs : e.files with
    | none => rw [hfs] at h; simp [Option.isSome] at h
    | some fs => simp [execEvent, htf, hfs]
  · by_cases hte : e.type = some "execution"
    · simp [execEvent, htf, hte]
    · by_cases htp : e.type = some "parameter" <;> simp [execEvent, htf, hte, htp]

theorem execLoop_cons_json (loading : Option Loader) (e : JsonObj) (rest : List RawLine)
    (st : ExecState) :
    execLoop loading (RawLine.jsonLine e :: rest) st =
      (match execEvent loading st e with
        | (st1, none) => execLoop loading rest st1
        | (st1, some er) => (st1, some er)) := rfl

theorem execLoop_cons_json_ok (loading : Option Loader) (e : JsonObj) (rest : List RawLine)
    (st st1 : ExecState) (h : execEvent loading st e = (st1, none)) :
    execLoop loading (RawLine.jsonLine e :: rest) st = execLoop loading rest st1 := by
  rw [execLoop_cons_json, h]

theorem execLoop_cons_json_err (loading : Option Loader) (e : JsonObj) (rest : List RawLine)
    (st st1 : ExecState) (er : PyErr) (h : execEvent loading st e = (st1, some er)) :
    execLoop loading (RawLine.jsonLine e :: rest) st = (st1, some er) := by
  rw [execLoop_cons_json, h]

theorem execLoop_char (l : Loader) :
    ∀ (lines : List RawLine) (st : ExecState), wfExecSome lines = true →
      execLoop (some l) lines st =
        ({ recipe := { st.recipe with
              execution := st.recipe.execution ++ execEventsOf lines,
              parameters := st.recipe.parameters ++ paramEventsOf lines },
            output := st.output ++ (unknownExecEventsOf lines).map Out.unknownLog,
            startedQ := st.startedQ ++ filesLabelsOf lines,
            completedQ := st.completedQ ++ keysOf lines,
            multiStarted := st.multiStarted || hasFilesEvent lines,
            loadingStops := st.loadingStops + filesCount lines,
            multiStops := st.multiStops }, none)
  | [], st, _ => by
    simp [execLoop, execEventsOf, paramEventsOf, unknownExecEventsOf, filesLabelsOf, keysOf,
      hasFilesEvent, filesCount]
  | RawLine.blank :: rest, st, h => by
    have h' : wfExecSome rest = true := by
      simpa [wfExecSome, execLineOkSome] using h
    have ih := execLoop_char l rest st h'
    simpa [execLoop, execEventsOf, paramEventsOf, unknownExecEventsOf, filesLabelsOf, keysOf,
      hasFilesEvent, filesCount, isFilesLine] using ih
  | RawLine.malformed :: rest, st, h => by
    simp [wfExecSome, execLineOkSome] at h
  | RawLine.jsonLine e :: rest, st, h => by
    have h' : wfExecSome rest = true := by
      have := h
      simp [wfExecSome, List.all_cons] at this
      simpa [wfExecSome] using this.2
    have hline : execLineOkSome (RawLine.jsonLine e) = true := by
      have := h
      simp [wfExecSome, List.all_cons] at this
      exact this.1
    by_cases htf : e.type = some "files"
    · simp [execLineOkSome, htf] at hline
      cases hfs : e.files with
      | none => rw [hfs] at hline; simp [Option.isSome] at hline
      | some fs =>
        have hev : execEvent (some l) st e =
            ({ st with loadingStops := st.loadingStops + 1,
                       multiStarted := true,
                       startedQ := st.startedQ ++ fs }, none) := by
          simp [execEvent, htf, hfs]
        rw [execLoop_cons_json_ok (some l) e rest st _ hev, execLoop_char l rest _ h']
        simp [execEventsOf, paramEventsOf, unknownExecEventsOf, filesLabelsOf, keysOf,
          hasFilesEvent, filesCount, isFilesLine, htf, hfs]
        omega
    · by_cases hte : e.type = some "execution"
      · have hev : execEvent (some l) st e =
            ({ st with recipe := { st.recipe with execution := st.recipe.execution ++ [e] },
                       completedQ := st.completedQ ++ [e.key] }, none) := by
          simp [execEvent, htf, hte]
        rw [execLoop_cons_json_ok (some l) e rest st _ hev, execLoop_char l rest _ h']
        simp [execEventsOf, paramEventsOf, unknownExecEventsOf, filesLabelsOf, keysOf,
          hasFilesEvent, filesCount, isFilesLine, htf, hte]
      · by_cases htp : e.type = some "parameter"
        · have hev : execEvent (some l) st e =
              ({ st with recipe := { st.recipe with
                  parameters := st.recipe.parameters ++ [e] } }, none) := by
            simp [execEvent, htf, hte, htp]
          rw [execLoop_cons_json_ok (some l) e rest st _ hev, execLoop_char l rest _ h']
          simp [execEventsOf, paramEventsOf, unknownExecEventsOf, filesLabelsOf, keysOf,
            hasFilesEvent, filesCount, isFilesLine, beq_iff_eq, htf, hte, htp]
        · have hev : execEvent (some l) st e =
              ({ st with output := st.output ++ [Out.unknownLog e] }, none) := by
            simp [execEvent, htf, hte, htp]
          have hfb : (e.type == some "files") = false := by
            simp only [beq_eq_false_iff_ne, ne_eq]
            exact htf
          rw [execLoop_cons_json_ok (some l) e rest st _ hev, execLoop_char l rest _ h']
          simp [execEventsOf, paramEventsOf, unknownExecEventsOf, filesLabelsOf, keysOf,
            hasFilesEvent, filesCount, isFilesLine, hfb, htf, hte, htp]

theorem execLoop_abort (l : Loader) :
    ∀ (pre rest : List RawLine) (st : ExecState), wfExecSome pre = true →
      execLoop (some l) (pre ++ RawLine.malformed :: rest) st =
        ((execLoop (some l) pre st).1, some PyErr.jsonDecodeError)
  | [], rest, st, _ => by simp [execLoop]
  | RawLine.blank :: pre, rest, st, h => by
    have h' : wfExecSome pre = true := by
      simpa [wfExecSome, execLineOkSome] using h
    simpa [execLoop] using execLoop_abort l pre rest st h'
  | RawLine.malformed :: pre, rest, st, h => by
    simp [wfExecSome, execLineOkSome] at h
  | RawLine.jsonLine e :: pre, rest, st, h => by
    have h' : wfExecSome pre = true := by
      have := h
      simp [wfExecSome, List.all_cons] at this
      simpa [wfExecSome] using this.2
    have hline : execLineOkSome (RawLine.jsonLine e) = true := by
      have := h
      simp [wfExecSome, List.all_cons] at this
      exact this.1
    have hsnd := execEvent_some_snd l st e hline
    rcases hev : execEvent (some l) st e with ⟨st1, er⟩
    have her : er = none := by rw [hev] at hsnd; exact hsnd
    subst her
    rw [List.cons_append,
      execLoop_cons_json_ok (some l) e (pre ++ RawLine.malformed :: rest) st st1 hev,
      execLoop_cons_json_ok (some l) e pre st st1 hev]
    exact execLoop_abort l pre rest st1 h'

theorem execEvent_none_notFiles (st : ExecState) (e : JsonObj)
    (h : ¬ e.type = some "files") :
    (execEvent none st e).2 = none ∧
      (execEvent none st e).1.multiStarted = st.multiStarted ∧
      (execEvent none st e).1.startedQ = st.startedQ ∧
      (execEvent none st e).1.loadingStops = st.loadingStops := by
  by_cases hte : e.type = some "execution"
  · simp [execEvent, h, hte]
  · by_cases htp : e.type = some "parameter" <;> simp [execEvent, h, hte, htp]

theorem execLoop_none_clean :
    ∀ (lines : List RawLine) (st : ExecState), wfExecNone lines = true →
      (execLoop none lines st).2 = none ∧
        (execLoop none lines st).1.multiStarted = st.multiStarted ∧
        (execLoop none lines st).1.startedQ = st.startedQ ∧
        (execLoop none lines st).1.loadingStops = st.loadingStops
  | [], st, _ => by simp [execLoop]
  | RawLine.blank :: rest, st, h => by
    have h' : wfExecNone rest = true := by
      simpa [wfExecNone, execLineOkNone] using h
    simpa [execLoop] using execLoop_none_clean rest st h'
  | RawLine.malformed :: rest, st, h => by
    simp [wfExecNone, execLineOkNone] at h
  | RawLine.jsonLine e :: rest, st, h => by
    have h' : wfExecNone rest = true := by
      have := h
      simp [wfExecNone, List.all_cons] at this
      simpa [wfExecNone] using this.2
    have hnf : ¬ e.type = some "files" := by
      have := h
      simp [wfExecNone, List.all_cons, execLineOkNone] at this
      exact this.1
    have hev := execEvent_none_notFiles st e hnf
    rcases heq : execEvent none st e with ⟨st1, er⟩
    have her : er = none := by rw [heq] at hev; exact hev.1
    subst her
    have ih := execLoop_none_clean rest st1 h'
    rw [heq] at hev
    have hrw := execLoop_cons_json_ok none e rest st st1 heq
    refine ⟨by rw [hrw]; exact ih.1, ?_, ?_, ?_⟩
    · rw [hrw, ih.2.1]; exact hev.2.1
    · rw [hrw, ih.2.2.1]; exact hev.2.2.1
    · rw [hrw, ih.2.2.2]; exact hev.2.2.2

theorem execLoop_none_files (e : JsonObj) (he : e.type = some "files") :
    ∀ (pre post : List RawLine) (st : ExecState), wfExecNone pre = true →
      execLoop none (pre ++ RawLine.jsonLine e :: post) st =
        ((execLoop none pre st).1, some PyErr.attributeErrorNoneStop)
  | [], post, st, _ => by
    rw [List.nil_append,
      execLoop_cons_json_err none e post st st PyErr.attributeErrorNoneStop
        (by simp [execEvent, he])]
    simp [execLoop]
  | RawLine.blank :: pre, post, st, h => by
    have h' : wfExecNone pre = true := by
      simpa [wfExecNone, execLineOkNone] using h
    simpa [execLoop] using execLoop_none_files e he pre post st h'
  | RawLine.malformed :: pre, post, st, h => by
    simp [wfExecNone, execLineOkNone] at h
  | RawLine.jsonLine e2 :: pre, post, st, h => by
    have h' : wfExecNone pre = true := by
      have := h
      simp [wfExecNone, List.all_cons] at this
      simpa [wfExecNone] using this.2
    have hnf : ¬ e2.type = some "files" := by
      have := h
      simp [wfExecNone, List.all_cons, execLineOkNone] at this
      exact this.1
    have hev := execEvent_none_notFiles st e2 hnf
    rcases heq : execEvent none st e2 with ⟨st1, er⟩
    have her : er = none := by rw [heq] at hev; exact hev.1
    subst her
    rw [List.cons_append,
      execLoop_cons_json_ok none e2 (pre ++ RawLine.jsonLine e :: post) st st1 heq,
      execLoop_cons_json_ok none e2 pre st st1 heq]
    exact execLoop_none_files e he pre post st1 h'

/-- Claim C1: for both outline-ingestion calls (init_recipe and
clarify_steps) fed the event lines id abc, step clone repo, step run
build, the resulting Recipe has id abc and steps clone repo then run
build, appended and printed 1-based in arrival order, the printed step
lines being exactly 1. clone repo then 2. run build (preceded by the
one-line banner exactly when a live loader was passed). -/
theorem claim_C1 (prompt lang : String) (wid : Option String) (lo : Option Loader)
    (r : Recipe) (c : String) (h : r.id ≠ none) :
    init_recipe prompt lang wid lo respOutlineC1 =
      ({ recipe := { id := some "abc", steps := ["clone repo", "run build"] },
         output := bannerOuts lo initBanner ++ [Out.line "1. clone repo", Out.line "2. run build"],
         loading := none,
         loadingStops := if lo.isSome then 1 else 0 }, none) ∧
    clarify_steps r c lo respOutlineC1 =
      ({ recipe := { r with id := some "abc", steps := ["clone repo", "run build"] },
         output := bannerOuts lo clarifyBanner ++ [Out.line "1. clone repo", Out.line "2. run build"],
         loading := none,
         loadingStops := if lo.isSome then 1 else 0 }, none) := by
  constructor
  · cases lo with
    | none => rfl
    | some l => cases l; rfl
  · cases hr : r.id with
    | none => exact absurd hr h
    | some s =>
      cases lo with
      | none =>
        simp only [clarify_steps, hr]
        simp [outlineLoop, outlineEvent, truthy, eIdAbc, eStepClone, eStepBuild, bannerOuts]
        exact ⟨by rfl, by rfl⟩
      | some l =>
        cases l
        simp only [clarify_steps, hr]
        simp [outlineLoop, outlineEvent, truthy, eIdAbc, eStepClone, eStepBuild, bannerOuts]
        exact ⟨by rfl, by rfl⟩

/-- Claim C1 witness: the theorem applied to a concrete recipe with an
id, with a live loader. -/
theorem claim_C1_witness :
    recipeR1.id ≠ none ∧
    clarify_steps recipeR1 "c" (some Loader.mk) respOutlineC1 =
      ({ recipe := { recipeR1 with id := some "abc", steps := ["clone repo", "run build"] },
         output := bannerOuts (some Loader.mk) clarifyBanner ++
           [Out.line "1. clone repo", Out.line "2. run build"],
         loading := none,
         loadingStops := if (some Loader.mk : Option Loader).isSome then 1 else 0 }, none) :=
  ⟨by decide,
   (claim_C1 "p" LANG_TF none (some Loader.mk) recipeR1 "c" (by decide)).2⟩

/-- Claim C2 (amended): the execution-stream dispatch keys on the type
field of the decoded event, not on the presence of a files, execution or
parameter field: a type files event stops the single-message reporter,
starts the multi-item reporter and pushes exactly the labels of its
files field onto the started queue; a type execution event is appended
to Recipe.execution and its key pushed onto the completed queue; a type
parameter event is appended to Recipe.parameters. -/
theorem claim_C2_amended (l : Loader) (st : ExecState) (e : JsonObj) :
    (∀ fs : List String, e.type = some "files" → e.files = some fs →
      execEvent (some l) st e =
        ({ st with loadingStops := st.loadingStops + 1,
                   multiStarted := true,
                   startedQ := st.startedQ ++ fs }, none)) ∧
    (e.type = some "execution" →
      execEvent (some l) st e =
        ({ st with recipe := { st.recipe with execution := st.recipe.execution ++ [e] },
                   completedQ := st.completedQ ++ [e.key] }, none)) ∧
    (e.type = some "parameter" →
      execEvent (some l) st e =
        ({ st with recipe :=
            { st.recipe with parameters := st.recipe.parameters ++ [e] } }, none)) := by
  refine ⟨?_, ?_, ?_⟩
  · intro fs htf hfs
    simp [execEvent, htf, hfs]
  · intro hte
    simp [execEvent, hte]
  · intro htp
    simp [execEvent, htp]

/-- Claim C2 witness: the amended dispatch evaluated on concrete typed
events. -/
theorem claim_C2_amended_witness :
    execEvent (some Loader.mk) execSt0 eFilesTyped =
      ({ execSt0 with loadingStops := execSt0.loadingStops + 1,
                      multiStarted := true,
                      startedQ := execSt0.startedQ ++ ["a.tf", "b.tf"] }, none) ∧
    execEvent (some Loader.mk) execSt0 eExecTyped =
      ({ execSt0 with
          recipe := { execSt0.recipe with execution := execSt0.recipe.execution ++ [eExecTyped] },
          completedQ := execSt0.completedQ ++ [eExecTyped.key] }, none) ∧
    execEvent (some Loader.mk) execSt0 eParamTyped =
      ({ execSt0 with
          recipe :=
            { execSt0.recipe with parameters := execSt0.recipe.parameters ++ [eParamTyped] } },
        none) :=
  ⟨(claim_C2_amended Loader.mk execSt0 eFilesTyped).1 ["a.tf", "b.tf"] rfl rfl,
   (claim_C2_amended Loader.mk execSt0 eExecTyped).2.1 rfl,
   (claim_C2_amended Loader.mk execSt0 eParamTyped).2.2 rfl⟩

/-- Claim C2 counterexample: an event that carries a files field but no
type tag is logged as unknown by get_recipe_execution; no labels are
pushed and no multi-item reporter is started, contrary to the claim that
carrying a files field triggers the reporter hand-off. -/
theorem claim_C2_counterexample :
    (get_recipe_execution recipeR1 respFilesNoType (some Loader.mk)).1.startedQ = [] ∧
    (get_recipe_execution recipeR1 respFilesNoType (some Loader.mk)).1.multiStarted = false ∧
    (get_recipe_execution recipeR1 respFilesNoType (some Loader.mk)).1.output =
      [Out.unknownLog eFilesNoType] ∧
    (get_recipe_execution recipeR1 respFilesNoType (some Loader.mk)).2 = none := by
  refine ⟨rfl, rfl, rfl, rfl⟩

/-- Claim C3: in every streaming-ingestion call, a malformed non-blank
line aborts the call with the decode error propagated, every mutation
applied by the earlier lines of the call remains in place, and the lines
after the malformed one are never consumed. -/
theorem claim_C3 (p lg : String) (w : Option String) (lo : Option Loader)
    (r : Recipe) (c : String) (l : Loader) (pre rest : List RawLine)
    (status : Nat) (body : String)
    (h1 : noMalformed pre = true) (h2 : wfExecSome pre = true) (h3 : r.id ≠ none) :
    init_recipe p lg w lo { status := status, body := body, lines := pre ++ RawLine.malformed :: rest } =
      ((outlineLoop initBanner pre
          { recipe := { emptyRecipe with steps := [] }, loading := lo }).1,
        some PyErr.jsonDecodeError) ∧
    clarify_steps r c lo { status := status, body := body, lines := pre ++ RawLine.malformed :: rest } =
      ((outlineLoop clarifyBanner pre
          { recipe := { r with steps := [] }, loading := lo }).1,
        some PyErr.jsonDecodeError) ∧
    get_recipe_execution r { status := status, body := body, lines := pre ++ RawLine.malformed :: rest } (some l) =
      ((execLoop (some l) pre
          { recipe := { r with execution := [], parameters := [] } }).1,
        some PyErr.jsonDecodeError) := by
  refine ⟨?_, ?_, ?_⟩
  · exact outlineLoop_abort initBanner pre rest _ h1
  · cases hr : r.id with
    | none => exact absurd hr h3
    | some s =>
      simp only [clarify_steps, hr]
      exact outlineLoop_abort clarifyBanner pre rest _ h1
  · cases hr : r.id with
    | none => exact absurd hr h3
    | some s =>
      simp only [get_recipe_execution, hr]
      rw [execLoop_abort l pre rest _ h2]

/-- Claim C3 witness: a step event followed by a malformed line, fed to
init_recipe: the call aborts with the decode error and the step already
appended stays in place. -/
theorem claim_C3_witness :
    noMalformed preC3 = true ∧
    init_recipe "p" LANG_TF none none { lines := preC3 ++ RawLine.malformed :: [] } =
      ((outlineLoop initBanner preC3
          { recipe := { emptyRecipe with steps := [] }, loading := none }).1,
        some PyErr.jsonDecodeError) :=
  ⟨by decide,
   (claim_C3 "p" LANG_TF none none recipeR1 "c" Loader.mk preC3 [] 200 ""
      (by decide) (by decide) (by decide)).1⟩

/-- Claim C4 (amended): given an active reporter, init_recipe and
clarify_steps stop it exactly once, on the first step event, and
get_recipe_execution stops it once per files event; when no such
meaningful event arrives the call returns without ever stopping the
reporter (there is no end-of-stream stop of the passed-in reporter). -/
theorem claim_C4_amended (p lg : String) (w : Option String) (l : Loader)
    (r : Recipe) (c : String) (resp : Response) :
    (noMalformed resp.lines = true →
      (init_recipe p lg w (some l) resp).1.loadingStops =
        (if hasStepEvent resp.lines then 1 else 0)) ∧
    (r.id ≠ none → noMalformed resp.lines = true →
      (clarify_steps r c (some l) resp).1.loadingStops =
        (if hasStepEvent resp.lines then 1 else 0)) ∧
    (r.id ≠ none → wfExecSome resp.lines = true →
      (get_recipe_execution r resp (some l)).1.loadingStops = filesCount resp.lines) := by
  refine ⟨?_, ?_, ?_⟩
  · intro h
    have hl := (outlineLoop_loading initBanner resp.lines
      { recipe := { emptyRecipe with steps := [] }, loading := some l } h).2
    simpa [init_recipe] using hl
  · intro hid h
    cases hr : r.id with
    | none => exact absurd hr hid
    | some s =>
      have hl := (outlineLoop_loading clarifyBanner resp.lines
        { recipe := { r with steps := [] }, loading := some l } h).2
      rw [hr] at hl
      simp only [clarify_steps, hr]
      simpa using hl
  · intro hid hw
    cases hr : r.id with
    | none => exact absurd hr hid
    | some s =>
      simp only [get_recipe_execution, hr]
      rw [execLoop_char l resp.lines _ hw]
      by_cases hm : (false || hasFilesEvent resp.lines) = true <;> simp [hm]

/-- Claim C4 witness: a stream with step events stops the init and
clarify reporters exactly once each; a stream with one files event stops
the execution reporter once. -/
theorem claim_C4_amended_witness :
    noMalformed respOutlineC1.lines = true ∧
    (init_recipe "p" LANG_TF none (some Loader.mk) respOutlineC1).1.loadingStops = 1 ∧
    (clarify_steps recipeR1 "c" (some Loader.mk) respOutlineC1).1.loadingStops = 1 ∧
    (get_recipe_execution recipeR1 respFilesTyped (some Loader.mk)).1.loadingStops =
      filesCount respFilesTyped.lines :=
  ⟨by decide,
   by
     have h := (claim_C4_amended "p" LANG_TF none Loader.mk recipeR1 "c" respOutlineC1).1
       (by decide)
     simpa using h,
   by
     have h := ((claim_C4_amended "p" LANG_TF none Loader.mk recipeR1 "c" respOutlineC1).2.1
       (by decide) (by decide))
     simpa using h,
   (claim_C4_amended "p" LANG_TF none Loader.mk recipeR1 "c" respFilesTyped).2.2
     (by decide) (by decide)⟩

/-- Claim C4 counterexample: init_recipe given an active reporter and a
stream holding only an id event returns normally without ever stopping
the reporter, contradicting the claim that the reporter is stopped
exactly once before the call returns, at end-of-stream if no meaningful
event arrived. -/
theorem claim_C4_counterexample :
    (init_recipe "p" LANG_TF none (some Loader.mk) respIdOnly).2 = none ∧
    (init_recipe "p" LANG_TF none (some Loader.mk) respIdOnly).1.loadingStops = 0 := by
  refine ⟨rfl, rfl⟩

/-- Claim C5: in every run of the edit loop that completes its
iterations, save_steps is invoked on exit exactly when the final step
sequence differs element-wise from the step sequence at loop entry;
continuing without any change triggers no persistence call. -/
theorem claim_C5 (r : Recipe) (actions : List EditAction) (saveResp : Response)
    (h : (editLoop actions r [Out.line ""]).2.2 = none) :
    (edit_steps r actions saveResp).1.saveCalled = true ↔
      (edit_steps r actions saveResp).1.recipe.steps ≠ r.steps := by
  rcases heq : editLoop actions r [Out.line ""] with ⟨r1, out1, err1⟩
  rw [heq] at h
  simp only at h
  subst h
  simp only [edit_steps, heq]
  by_cases hs : r.steps = r1.steps
  · simp [hs]
  · rcases hsv : save_steps r1 saveResp with ⟨so, se⟩
    simp [hs, Ne, eq_comm]

/-- Claim C5 witness: editing the steps step1, blank, step2 to stepA,
stepB and continuing persists, because the sequences differ. -/
theorem claim_C5_witness :
    (editLoop [EditAction.vim "stepA\nstepB"] recipeSteps3 [Out.line ""]).2.2 = none ∧
    ((edit_steps recipeSteps3 [EditAction.vim "stepA\nstepB"] {}).1.saveCalled = true ↔
      (edit_steps recipeSteps3 [EditAction.vim "stepA\nstepB"] {}).1.recipe.steps ≠
        recipeSteps3.steps) :=
  ⟨by decide,
   claim_C5 recipeSteps3 [EditAction.vim "stepA\nstepB"] {} (by decide)⟩

/-- Claim C6 (amended): the non-streamed requests
(regenerate_recipe_execution, save_steps, save_flow and list_recipes)
treat a non-200 status as fatal, printing the response body and raising,
with no result returned; the streamed calls (init_recipe, clarify_steps,
get_recipe_execution) never inspect the status code and ingest the body
lines identically for any status. -/
theorem claim_C6_amended (r : Recipe) (c nm : String) (resp : Response)
    (lresp : ListResponse)
    (p lg : String) (w : Option String) (lo : Option Loader) (body2 : String)
    (lines : List RawLine) (s1 s2 : Nat) :
    (r.id ≠ none → resp.status ≠ 200 →
      regenerate_recipe_execution r c resp =
        ([Out.respBody resp.body], Except.error (PyErr.httpError resp.status))) ∧
    (resp.status ≠ 200 →
      save_steps r resp =
        ([Out.line "", Out.respBody resp.body], some (PyErr.httpError resp.status))) ∧
    (resp.status ≠ 200 →
      save_flow r nm resp =
        ([Out.line "", Out.respBody resp.body], some (PyErr.httpError resp.status))) ∧
    (lresp.status ≠ 200 →
      list_recipes lresp =
        ([Out.respBody lresp.body], Except.error (PyErr.httpError lresp.status))) ∧
    init_recipe p lg w lo { status := s1, body := body2, lines := lines } =
      init_recipe p lg w lo { status := s2, body := body2, lines := lines } ∧
    clarify_steps r c lo { status := s1, body := body2, lines := lines } =
      clarify_steps r c lo { status := s2, body := body2, lines := lines } ∧
    get_recipe_execution r { status := s1, body := body2, lines := lines } lo =
      get_recipe_execution r { status := s2, body := body2, lines := lines } lo := by
  refine ⟨?_, ?_, ?_, ?_, rfl, rfl, rfl⟩
  · intro hid hst
    cases hr : r.id with
    | none => exact absurd hr hid
    | some s => simp [regenerate_recipe_execution, hr, hst]
  · intro hst
    simp [save_steps, hst]
  · intro hst
    simp [save_flow, hst]
  · intro hst
    simp [list_recipes, hst]

/-- Claim C6 witness: a 500 response makes regenerate, save_steps,
save_flow and list_recipes print the body and raise. -/
theorem claim_C6_amended_witness :
    ((500 : Nat) ≠ 200) ∧
    regenerate_recipe_execution recipeR1 "c" { status := 500, body := "oops" } =
      ([Out.respBody "oops"], Except.error (PyErr.httpError 500)) ∧
    save_steps recipeR1 { status := 500, body := "oops" } =
      ([Out.line "", Out.respBody "oops"], some (PyErr.httpError 500)) ∧
    save_flow recipeR1 "n" { status := 500, body := "oops" } =
      ([Out.line "", Out.respBody "oops"], some (PyErr.httpError 500)) ∧
    list_recipes { status := 500, body := "oops" } =
      ([Out.respBody "oops"], Except.error (PyErr.httpError 500)) :=
  ⟨by decide,
   (claim_C6_amended recipeR1 "c" "n" { status := 500, body := "oops" }
      { status := 500, body := "oops" } "p" LANG_TF none none "" [] 200 200).1
     (by decide) (by decide),
   (claim_C6_amended recipeR1 "c" "n" { status := 500, body := "oops" }
      { status := 500, body := "oops" } "p" LANG_TF none none "" [] 200 200).2.1
     (by decide),
   (claim_C6_amended recipeR1 "c" "n" { status := 500, body := "oops" }
      { status := 500, body := "oops" } "p" LANG_TF none none "" [] 200 200).2.2.1
     (by decide),
   (claim_C6_amended recipeR1 "c" "n" { status := 500, body := "oops" }
      { status := 500, body := "oops" } "p" LANG_TF none none "" [] 200 200).2.2.2.1
     (by decide)⟩

/-- Claim C6 counterexample: init_recipe on a status-500 response whose
body is an id event returns a recipe normally, with no error raised,
contradicting the claim that every call treats a non-200 status as fatal
and returns no result. -/
theorem claim_C6_counterexample :
    (init_recipe "p" LANG_TF none none { status := 500, lines := [RawLine.jsonLine eIdAbc] }).2 = none ∧
    (init_recipe "p" LANG_TF none none
      { status := 500, lines := [RawLine.jsonLine eIdAbc] }).1.recipe.id = some "abc" := by
  refine ⟨rfl, rfl⟩

/-- Claim C7 (amended): an event carrying none of the recognized tags is
a non-fatal no-op in every streaming-ingestion call and ingestion
continues with the next line, but only get_recipe_execution logs the
unrecognized object; init_recipe and clarify_steps skip it silently with
no output. -/
theorem claim_C7_amended (banner : String) (lo : Option Loader) (e : JsonObj)
    (rest : List RawLine) (ost : OutlineState) (est : ExecState) :
    (truthy e.id = false → truthy e.step = false →
      outlineLoop banner (RawLine.jsonLine e :: rest) ost = outlineLoop banner rest ost) ∧
    (¬ e.type = some "files" → ¬ e.type = some "execution" → ¬ e.type = some "parameter" →
      execLoop lo (RawLine.jsonLine e :: rest) est =
        execLoop lo rest { est with output := est.output ++ [Out.unknownLog e] }) := by
  constructor
  · intro h1 h2
    have hev : outlineEvent banner ost e = ost := by
      simp [outlineEvent, h1, h2]
    rw [show outlineLoop banner (RawLine.jsonLine e :: rest) ost =
      outlineLoop banner rest (outlineEvent banner ost e) from rfl, hev]
  · intro h1 h2 h3
    have hev : execEvent lo est e =
        ({ est with output := est.output ++ [Out.unknownLog e] }, none) := by
      simp [execEvent, h1, h2, h3]
    exact execLoop_cons_json_ok lo e rest est _ hev

/-- Claim C7 witness: an untagged event is skipped by the outline loop
and logged then skipped by the execution loop. -/
theorem claim_C7_amended_witness :
    outlineLoop initBanner [RawLine.jsonLine eUnknown] ostW = outlineLoop initBanner [] ostW ∧
    execLoop none [RawLine.jsonLine eUnknown] estW =
      execLoop none [] { estW with output := estW.output ++ [Out.unknownLog eUnknown] } :=
  ⟨(claim_C7_amended initBanner none eUnknown [] ostW estW).1 (by decide) (by decide),
   (claim_C7_amended initBanner none eUnknown [] ostW estW).2
     (by decide) (by decide) (by decide)⟩

/-- Claim C7 counterexample: init_recipe fed a single unrecognized event
continues and returns normally but prints nothing at all, contradicting
the claim that the object is logged as unrecognized in every ingestion
function. -/
theorem claim_C7_counterexample :
    (init_recipe "p" LANG_TF none none { lines := [RawLine.jsonLine eUnknown] }).2 = none ∧
    (init_recipe "p" LANG_TF none none { lines := [RawLine.jsonLine eUnknown] }).1.output = [] := by
  refine ⟨rfl, rfl⟩

theorem recipe_entrypoint_fst (env : EntryEnv) (i : Option Nat) :
    (recipe_entrypoint env i).1 = (entryBody env i).1 := by
  unfold recipe_entrypoint
  rcases entryBody env i with ⟨tr, er⟩
  cases er with
  | none => rfl
  | some e => cases e <;> rfl

/-- Claim C8: a KeyboardInterrupt raised at any suspension point of the
recipe flow is caught only at the outermost scope of the entry point:
the entry point returns normally (no propagation), its effect trace is
exactly the effects of the calls completed before the interrupt, and
that trace is a prefix of the uninterrupted trace (no further side
effects, in particular no save request and no additional output). -/
theorem claim_C8 (env : EntryEnv) (k : Nat) (hk : k < (entryChunks env).1.length) :
    (recipe_entrypoint env (some k)).2 = none ∧
    (recipe_entrypoint env (some k)).1 = ((entryChunks env).1.take k).flatten ∧
    ∃ rest, (recipe_entrypoint env none).1 = (recipe_entrypoint env (some k)).1 ++ rest := by
  have hb : entryBody env (some k) =
      (((entryChunks env).1.take k).flatten, some PyErr.keyboardInterrupt) := by
    simp [entryBody, hk]
  have h2 : recipe_entrypoint env (some k) = (((entryChunks env).1.take k).flatten, none) := by
    unfold recipe_entrypoint
    rw [hb]
  refine ⟨by rw [h2], by rw [h2], ?_⟩
  refine ⟨((entryChunks env).1.drop k).flatten, ?_⟩
  rw [recipe_entrypoint_fst, h2]
  show (entryBody env none).1 = _
  simp only [entryBody]
  rw [← List.flatten_append, List.take_append_drop]

/-- Claim C8 witness: the entry point interrupted after its first call
returns normally with no error. -/
theorem claim_C8_witness :
    1 < (entryChunks envW).1.length ∧ (recipe_entrypoint envW (some 1)).2 = none :=
  ⟨by decide, (claim_C8 envW 1 (by decide)).1⟩

/-- Claim C9: get_recipe_execution called with loading None on a stream
whose first files-typed event arrives raises AttributeError at the stop
call instead of starting the multi-item reporter: the call ends with
that error, no multi-item reporter was constructed and no label was
pushed onto the started queue. -/
theorem claim_C9 (r : Recipe) (pre post : List RawLine) (e : JsonObj)
    (status : Nat) (body : String)
    (hid : r.id ≠ none) (hpre : wfExecNone pre = true) (he : e.type = some "files") :
    (get_recipe_execution r
        { status := status, body := body, lines := pre ++ RawLine.jsonLine e :: post } none).2 =
      some PyErr.attributeErrorNoneStop ∧
    (get_recipe_execution r
        { status := status, body := body, lines := pre ++ RawLine.jsonLine e :: post } none).1.multiStarted =
      false ∧
    (get_recipe_execution r
        { status := status, body := body, lines := pre ++ RawLine.jsonLine e :: post } none).1.startedQ =
      [] := by
  cases hr : r.id with
  | none => exact absurd hr hid
  | some s =>
    have habort := execLoop_none_files e he pre post
      { recipe := { r with execution := [], parameters := [] } } hpre
    have hclean := execLoop_none_clean pre
      { recipe := { r with execution := [], parameters := [] } } hpre
    rw [hr] at habort hclean
    simp only [get_recipe_execution, hr]
    rw [habort]
    exact ⟨rfl, hclean.2.1, hclean.2.2.1⟩

/-- Claim C9 witness: an execution event then a files event, with
loading None, raises AttributeError. -/
theorem claim_C9_witness :
    recipeR1.id ≠ none ∧
    (get_recipe_execution recipeR1
        { lines := [RawLine.jsonLine eExecTyped, RawLine.jsonLine eFilesTyped] } none).2 =
      some PyErr.attributeErrorNoneStop :=
  ⟨by decide,
   (claim_C9 recipeR1 [RawLine.jsonLine eExecTyped] [] eFilesTyped 200 ""
      (by decide) (by decide) (by decide)).1⟩

/-- Claim C10: clarify_steps resets Recipe.steps to empty before
consuming any line, and get_recipe_execution resets Recipe.execution and
Recipe.parameters; after a completed call each sequence equals exactly
the matching events of that stream in arrival order, so values from
earlier calls are discarded even when the new stream supplies no such
events. -/
theorem claim_C10 (r : Recipe) (c : String) (lo : Option Loader) (l : Loader)
    (resp : Response) (hid : r.id ≠ none) :
    (noMalformed resp.lines = true →
      (clarify_steps r c lo resp).2 = none ∧
      (clarify_steps r c lo resp).1.recipe.steps = stepsOf resp.lines) ∧
    (wfExecSome resp.lines = true →
      (get_recipe_execution r resp (some l)).2 = none ∧
      (get_recipe_execution r resp (some l)).1.recipe.execution = execEventsOf resp.lines ∧
      (get_recipe_execution r resp (some l)).1.recipe.parameters = paramEventsOf resp.lines) := by
  constructor
  · intro h
    cases hr : r.id with
    | none => exact absurd hr hid
    | some s =>
      have hchar := outlineLoop_steps clarifyBanner resp.lines
        { recipe := { r with steps := [] }, loading := lo } h
      rw [hr] at hchar
      simp only [clarify_steps, hr]
      exact ⟨hchar.1, by rw [hchar.2.1]; rfl⟩
  · intro hw
    cases hr : r.id with
    | none => exact absurd hr hid
    | some s =>
      have hchar := execLoop_char l resp.lines
        { recipe := { r with execution := [], parameters := [] } } hw
      rw [hr] at hchar
      simp only [get_recipe_execution, hr]
      rw [hchar]
      simp only
      by_cases hm : (false || hasFilesEvent resp.lines) = true <;> simp [hm]

/-- Claim C10 witness: a clarify stream of the worked example yields
exactly its step events; an execution stream yields exactly its
execution-typed events, discarding nothing else. -/
theorem claim_C10_witness :
    recipeR1.id ≠ none ∧
    (clarify_steps recipeR1 "c" none respOutlineC1).1.recipe.steps = stepsOf respOutlineC1.lines ∧
    (get_recipe_execution recipeR1 respExecMix (some Loader.mk)).1.recipe.execution =
      execEventsOf respExecMix.lines :=
  ⟨by decide,
   ((claim_C10 recipeR1 "c" none Loader.mk respOutlineC1 (by decide)).1 (by decide)).2,
   (((claim_C10 recipeR1 "c" none Loader.mk respExecMix (by decide)).2 (by decide)).2).1⟩

end PromptOps
